import Mathlib

/-!
Verification of the text-buffer and cursor (point) core of the wrenched
editor (src/src/buffer.rs), shallowly embedded in Lean 4.

The rope (ropey::Rope) is modelled as a list of characters.  The index
translation functions follow ropey's documented semantics:
  * a rope always has at least one line (`len_lines = count of newlines + 1`);
  * `line_to_char line` returns the char index of the start of `line`, and
    `line_to_char len_lines = len_chars` (one past the last line is allowed);
  * `char_to_line i` returns the index of the line containing char `i`, with
    `char_to_line len_chars` being the last line index.
Operations that panic in Rust (ropey index preconditions, the source's
`assert!`) are modelled as `Option`-valued functions returning `none`.
-/

namespace Wrenched

/-- The rope's character content, modelled as a list of Unicode scalar values. -/
abbrev Rope := List Char

/-- `Rope::len_chars`. -/
def lenChars (r : Rope) : Nat := r.length

/-- `Rope::len_lines`: number of newline characters plus one. -/
def lenLines (r : Rope) : Nat := r.count '\n' + 1

/-- `Rope::line_to_char`: char index of the start of the given line.
Out-of-range lines yield `lenChars` (ropey allows one past the last line;
all call sites in the source clamp to that bound first). -/
def lineToChar : Rope → Nat → Nat
  | _, 0 => 0
  | [], _ + 1 => 0
  | c :: rest, n + 1 =>
      if c = '\n' then 1 + lineToChar rest n else 1 + lineToChar rest (n + 1)

/-- `Rope::char_to_line`: index of the line containing the given char index;
one past the end yields the last line index. -/
def charToLine : Rope → Nat → Nat
  | [], _ => 0
  | _ :: _, 0 => 0
  | c :: rest, i + 1 => (if c = '\n' then 1 else 0) + charToLine rest i

/-- `Rope::insert` at a char index (caller checks `i ≤ lenChars`). -/
def ropeInsert (r : Rope) (i : Nat) (text : Rope) : Rope :=
  r.take i ++ text ++ r.drop i

/-- `Rope::remove` of the half-open char range `[a, b)`
(caller checks `a ≤ b` and `b ≤ lenChars`). -/
def ropeRemove (r : Rope) (a b : Nat) : Rope :=
  r.take a ++ r.drop b

/-- `Rope::slice` of the half-open char range `[a, b)`. -/
def ropeSlice (r : Rope) (a b : Nat) : Rope :=
  (r.drop a).take (b - a)

/-- `Buffer`: the text store — content rope, optional backing path, dirty flag. -/
structure Buffer where
  path : Option String
  rope : Rope
  is_modified : Bool
  deriving Repr, DecidableEq

/-- `Buffer::new`. -/
def Buffer.new : Buffer :=
  { path := none, is_modified := false, rope := [] }

/-- `Buffer::from_string`. -/
def Buffer.from_string (s : Rope) : Buffer :=
  { path := none, is_modified := false, rope := s }

/-- `Buffer::save_as`: the successful write action — full content to the
given path.  (I/O failure is outside the embedding; the success value
records what is written where.) -/
def Buffer.save_as (b : Buffer) (p : String) : String × Rope :=
  (p, b.rope)

/-- `Buffer::save`: returns the optional write action performed, paired with
the buffer afterwards.  The source takes `&self`: the buffer — in
particular `is_modified` — is returned unchanged. -/
def Buffer.save (b : Buffer) : Option (String × Rope) × Buffer :=
  if !b.is_modified || b.path.isNone then (none, b)
  else
    match b.path with
    | some p => (some (b.save_as p), b)
    | none => (none, b)

/-- `BufferView`: a cursor (point) into a buffer.  The shallow embedding
carries the shared, mutex-guarded `Arc<Mutex<Buffer>>` as an explicit
`buffer` component of the state. -/
structure BufferView where
  point_start : Nat
  point_end : Nat
  buffer : Buffer
  deriving Repr, DecidableEq

/-- `BufferView::new`: point `0..0` over the given buffer. -/
def BufferView.new (b : Buffer) : BufferView :=
  { point_start := 0, point_end := 0, buffer := b }

/-- `BufferView::move_point_forward_char`. -/
def move_point_forward_char (v : BufferView) : BufferView :=
  if v.point_end < lenChars v.buffer.rope then
    { v with point_end := v.point_end + 1, point_start := v.point_end + 1 }
  else v

/-- `BufferView::move_point_backward_char`. -/
def move_point_backward_char (v : BufferView) : BufferView :=
  if v.point_start > 0 then
    { v with point_start := v.point_start - 1, point_end := v.point_start - 1 }
  else v

/-- The target offset computed by `BufferView::move_point_end_of_line`. -/
def endOfLineIdx (v : BufferView) : Nat :=
  if charToLine v.buffer.rope v.point_end = 0 then lenChars v.buffer.rope
  else lineToChar v.buffer.rope (charToLine v.buffer.rope v.point_end + 1) - 1

/-- `BufferView::move_point_end_of_line`. -/
def move_point_end_of_line (v : BufferView) : BufferView :=
  { v with point_start := endOfLineIdx v, point_end := endOfLineIdx v }

/-- `BufferView::goto_char`: collapse to `min char_idx len_chars`. -/
def goto_char (v : BufferView) (char_idx : Nat) : BufferView :=
  { v with point_start := min char_idx (lenChars v.buffer.rope),
           point_end := min char_idx (lenChars v.buffer.rope) }

/-- `BufferView::goto_line`: collapse to `line_to_char (min len_lines line_idx)`. -/
def goto_line (v : BufferView) (line_idx : Nat) : BufferView :=
  { v with point_start := lineToChar v.buffer.rope (min (lenLines v.buffer.rope) line_idx),
           point_end := lineToChar v.buffer.rope (min (lenLines v.buffer.rope) line_idx) }

/-- `BufferView::move_point_start_of_line`. -/
def move_point_start_of_line (v : BufferView) : BufferView :=
  goto_line v (charToLine v.buffer.rope v.point_start)

/-- `BufferView::goto_end_of_buffer`. -/
def goto_end_of_buffer (v : BufferView) : BufferView :=
  goto_char v (lenChars v.buffer.rope)

/-- `BufferView::goto_start_of_buffer`. -/
def goto_start_of_buffer (v : BufferView) : BufferView :=
  goto_char v 0

/-- `BufferView::insert_at_point`: insert at `point.start` (ropey panics —
`none` — if `point.start > len_chars`), advance the collapsed point by the
inserted character count, mark the buffer modified. -/
def insert_at_point (v : BufferView) (t : Rope) : Option BufferView :=
  if v.point_start ≤ lenChars v.buffer.rope then
    some { point_start := v.point_start + t.length,
           point_end := v.point_start + t.length,
           buffer := { v.buffer with
                         rope := ropeInsert v.buffer.rope v.point_start t,
                         is_modified := true } }
  else none

/-- The upper bound `to` of the range removed by `BufferView::delete_at_point`. -/
def deleteTo (v : BufferView) : Nat :=
  if v.point_start = v.point_end then
    min (lenChars v.buffer.rope) (v.point_end + 1)
  else v.point_end

/-- `BufferView::delete_at_point`: `none` models an abort — the source's
`assert!(p.end <= len_chars)` (outer guard) or ropey's `remove` index
precondition (inner guard); otherwise removes `[point.start, to)` and marks
the buffer modified.  The point itself is not changed. -/
def delete_at_point (v : BufferView) : Option BufferView :=
  if v.point_end ≤ lenChars v.buffer.rope then
    if v.point_start ≤ deleteTo v ∧ deleteTo v ≤ lenChars v.buffer.rope then
      some { v with buffer := { v.buffer with
                                  rope := ropeRemove v.buffer.rope v.point_start (deleteTo v),
                                  is_modified := true } }
    else none
  else none

/-- Observable summary of a view: point start, point end, content. -/
def viewSummary (v : BufferView) : Nat × Nat × Rope :=
  (v.point_start, v.point_end, v.buffer.rope)

/-- Cursor states reachable from a fresh view (`BufferView::new`, point `0..0`)
by any sequence of the public movement and edit operations.  The edit
operations step only when they complete normally (no assertion failure). -/
inductive Reachable (b : Buffer) : BufferView → Prop where
  | init : Reachable b (BufferView.new b)
  | fwd {v : BufferView} : Reachable b v → Reachable b (move_point_forward_char v)
  | bwd {v : BufferView} : Reachable b v → Reachable b (move_point_backward_char v)
  | eol {v : BufferView} : Reachable b v → Reachable b (move_point_end_of_line v)
  | sol {v : BufferView} : Reachable b v → Reachable b (move_point_start_of_line v)
  | gchar {v : BufferView} (n : Nat) : Reachable b v → Reachable b (goto_char v n)
  | gline {v : BufferView} (n : Nat) : Reachable b v → Reachable b (goto_line v n)
  | gend {v : BufferView} : Reachable b v → Reachable b (goto_end_of_buffer v)
  | gstart {v : BufferView} : Reachable b v → Reachable b (goto_start_of_buffer v)
  | ins {v w : BufferView} (t : Rope) :
      Reachable b v → insert_at_point v t = some w → Reachable b w
  | del {v w : BufferView} :
      Reachable b v → delete_at_point v = some w → Reachable b w

/-- The cursor well-formedness invariant: collapsed point within bounds.
Every reachable state satisfies this strengthened form (no public operation
ever produces a non-collapsed point). -/
def pointInv (v : BufferView) : Prop :=
  v.point_start = v.point_end ∧ v.point_end ≤ lenChars v.buffer.rope

theorem lineToChar_le (r : Rope) (n : Nat) : lineToChar r n ≤ lenChars r := by
  induction r generalizing n with
  | nil => cases n <;> simp [lineToChar, lenChars]
  | cons c rest ih =>
      cases n with
      | zero => simp [lineToChar, lenChars]
      | succ m =>
          simp only [lineToChar, lenChars, List.length_cons]
          split
          · have := ih m
            simp only [lenChars] at this
            omega
          · have := ih (m + 1)
            simp only [lenChars] at this
            omega

theorem endOfLineIdx_le (v : BufferView) : endOfLineIdx v ≤ lenChars v.buffer.rope := by
  unfold endOfLineIdx
  split
  · exact Nat.le_refl _
  · have := lineToChar_le v.buffer.rope (charToLine v.buffer.rope v.point_end + 1)
    omega

theorem pointInv_fwd (v : BufferView) (h : pointInv v) :
    pointInv (move_point_forward_char v) := by
  obtain ⟨h1, h2⟩ := h
  unfold move_point_forward_char
  split
  · refine ⟨rfl, ?_⟩
    show v.point_end + 1 ≤ lenChars v.buffer.rope
    omega
  · exact ⟨h1, h2⟩

theorem pointInv_bwd (v : BufferView) (h : pointInv v) :
    pointInv (move_point_backward_char v) := by
  obtain ⟨h1, h2⟩ := h
  unfold move_point_backward_char
  split
  · refine ⟨rfl, ?_⟩
    show v.point_start - 1 ≤ lenChars v.buffer.rope
    omega
  · exact ⟨h1, h2⟩

theorem pointInv_eol (v : BufferView) : pointInv (move_point_end_of_line v) :=
  ⟨rfl, endOfLineIdx_le v⟩

theorem pointInv_gchar (v : BufferView) (n : Nat) : pointInv (goto_char v n) :=
  ⟨rfl, Nat.min_le_right _ _⟩

theorem pointInv_gline (v : BufferView) (n : Nat) : pointInv (goto_line v n) :=
  ⟨rfl, lineToChar_le _ _⟩

theorem lenChars_ropeInsert (r : Rope) (i : Nat) (t : Rope) (h : i ≤ lenChars r) :
    lenChars (ropeInsert r i t) = lenChars r + t.length := by
  simp only [lenChars, ropeInsert, List.length_append, List.length_take,
    List.length_drop]
  simp only [lenChars] at h
  omega

theorem lenChars_ropeRemove (r : Rope) (a b : Nat) (h1 : a ≤ b) (h2 : b ≤ lenChars r) :
    lenChars (ropeRemove r a b) = lenChars r - (b - a) := by
  simp only [lenChars, ropeRemove, List.length_append, List.length_take,
    List.length_drop]
  simp only [lenChars] at h2
  omega

theorem pointInv_ins (v w : BufferView) (t : Rope)
    (h : insert_at_point v t = some w) : pointInv w := by
  by_cases hc : v.point_start ≤ lenChars v.buffer.rope
  · rw [insert_at_point, if_pos hc] at h
    injection h with h
    subst h
    refine ⟨rfl, ?_⟩
    show v.point_start + t.length ≤ lenChars (ropeInsert v.buffer.rope v.point_start t)
    rw [lenChars_ropeInsert v.buffer.rope v.point_start t hc]
    omega
  · rw [insert_at_point, if_neg hc] at h
    exact absurd h (by simp)

theorem pointInv_del (v w : BufferView) (hv : pointInv v)
    (h : delete_at_point v = some w) : pointInv w := by
  obtain ⟨h1, h2⟩ := hv
  rw [delete_at_point, if_pos h2] at h
  by_cases hg : v.point_start ≤ deleteTo v ∧ deleteTo v ≤ lenChars v.buffer.rope
  · rw [if_pos hg] at h
    injection h with h
    subst h
    refine ⟨h1, ?_⟩
    show v.point_end ≤ lenChars (ropeRemove v.buffer.rope v.point_start (deleteTo v))
    rw [lenChars_ropeRemove v.buffer.rope v.point_start (deleteTo v) hg.1 hg.2]
    omega
  · rw [if_neg hg] at h
    exact absurd h (by simp)

theorem reachable_pointInv {b : Buffer} {v : BufferView}
    (h : Reachable b v) : pointInv v := by
  induction h with
  | init => exact ⟨rfl, Nat.zero_le _⟩
  | fwd _ ih => exact pointInv_fwd _ ih
  | bwd _ ih => exact pointInv_bwd _ ih
  | eol _ _ => exact pointInv_eol _
  | sol _ _ => exact pointInv_gline _ _
  | gchar n _ _ => exact pointInv_gchar _ n
  | gline n _ _ => exact pointInv_gline _ n
  | gend _ _ => exact pointInv_gchar _ _
  | gstart _ _ => exact pointInv_gchar _ _
  | ins t _ heq _ => exact pointInv_ins _ _ t heq
  | del _ heq ih => exact pointInv_del _ _ ih heq

/-- The external process spawned by `BufferView::run_shell_command`:
program name and argument list. -/
structure ProcessInvocation where
  program : String
  args : List String
  deriving Repr, DecidableEq

/-- Modelled from the spec: the source example process is `echo -n <text>`,
which writes exactly its argument to stdout and exits successfully; this
gives the stdout that the source captures (and then only debug-prints). -/
def capturedStdout : ProcessInvocation → String
  | ⟨"echo", ["-n", a]⟩ => a
  | _ => ""

/-- `BufferView::run_shell_command`: slices the fixed line range
`[line_to_char 1, line_to_char 2)` of the rope, spawns `echo -n <slice>`
with stdout piped, waits, debug-prints the output and returns `Ok(())`.
The result records the spawned invocation together with the value actually
handed back to the caller, which is `()` — the captured output is not
returned.  `none` models the `line_to_char 2` panic on a buffer with fewer
than two lines. -/
def run_shell_command (v : BufferView) : Option (ProcessInvocation × Unit) :=
  if 2 ≤ lenLines v.buffer.rope then
    some (⟨"echo",
           ["-n", String.mk (ropeSlice v.buffer.rope
                              (lineToChar v.buffer.rope 1)
                              (lineToChar v.buffer.rope 2))]⟩, ())
  else none

/-- The component of `run_shell_command`'s result visible to the caller. -/
def callerValue (r : ProcessInvocation × Unit) : Unit := r.2

/-- The stdout the spawned process produces (under the `echo -n` model). -/
def spawnedStdout (r : ProcessInvocation × Unit) : String := capturedStdout r.1

/-- A dirty buffer with a backing path, content `"abc"`. -/
def dirtyBuf : Buffer := { path := some "f.txt", rope := "abc".toList, is_modified := true }

/-- View over content `"abcdef"` with an active selection `1..4`. -/
def selView : BufferView := { point_start := 1, point_end := 4,
                              buffer := { path := none, rope := "abcdef".toList, is_modified := false } }

/-- View over the 1-line content `"abc"`, point `0..0`. -/
def abcView : BufferView := { point_start := 0, point_end := 0,
                              buffer := { path := none, rope := "abc".toList, is_modified := false } }

/-- View over the 1-line content `"abc"`, point collapsed at the end `3..3`. -/
def abcEndView : BufferView := { point_start := 3, point_end := 3,
                                 buffer := { path := none, rope := "abc".toList, is_modified := false } }

/-- View over content `"abc\ndef\n"`, point `4..4` (the offset of `d`). -/
def nlView : BufferView := { point_start := 4, point_end := 4,
                             buffer := { path := none, rope := "abc\ndef\n".toList, is_modified := false } }

/-- View whose second line is `"X\n"`. -/
def shellViewX : BufferView := { point_start := 0, point_end := 0,
                                 buffer := { path := none, rope := "a\nX\n".toList, is_modified := false } }

/-- View whose second line is `"Y\n"`. -/
def shellViewY : BufferView := { point_start := 0, point_end := 0,
                                 buffer := { path := none, rope := "a\nY\n".toList, is_modified := false } }

/-- View over content `"abc\ndef\nghi\n"`. -/
def shellView3 : BufferView := { point_start := 0, point_end := 0,
                                 buffer := { path := none, rope := "abc\ndef\nghi\n".toList, is_modified := false } }

/-- The state reached from a fresh empty buffer by insert `"ab"`, move
backward one char, delete forward: content `"a"`, point `1..1`. -/
def delView : BufferView := { point_start := 1, point_end := 1,
                              buffer := { path := none, rope := "a".toList, is_modified := true } }

/-- Intermediate state: empty buffer after insert `"ab"` — point `2..2`. -/
def insStepView : BufferView := { point_start := 2, point_end := 2,
                                  buffer := { path := none, rope := "ab".toList, is_modified := true } }

/-- Intermediate state: `insStepView` after one backward char — point `1..1`. -/
def bwdStepView : BufferView := { point_start := 1, point_end := 1,
                                  buffer := { path := none, rope := "ab".toList, is_modified := true } }

/-- Claim C1: for every reachable Cursor state — starting from a cursor
created at `0..0` and applying any sequence of the public movement and edit
operations — the range satisfies `0 ≤ start ≤ end ≤ len_chars`; in
particular a `delete_at_point` step (`Reachable.del`) preserves this
invariant. -/
theorem C1_reachable_cursor_invariant (b : Buffer) (v : BufferView)
    (h : Reachable b v) :
    0 ≤ v.point_start ∧ v.point_start ≤ v.point_end ∧
      v.point_end ≤ lenChars v.buffer.rope := by
  obtain ⟨h1, h2⟩ := reachable_pointInv h
  exact ⟨Nat.zero_le _, Nat.le_of_eq h1, h2⟩

/-- Witness for C1 at a concrete reachable state: insert `"ab"` into an
empty buffer, move backward one char, then delete forward. -/
theorem C1_reachable_cursor_invariant_witness :
    0 ≤ delView.point_start ∧ delView.point_start ≤ delView.point_end ∧
      delView.point_end ≤ lenChars delView.buffer.rope := by
  refine C1_reachable_cursor_invariant Buffer.new delView ?_
  have h1 : Reachable Buffer.new insStepView :=
    Reachable.ins ("ab".toList) Reachable.init (by decide)
  have e : move_point_backward_char insStepView = bwdStepView := by decide
  exact Reachable.del (e ▸ Reachable.bwd h1) (by decide)

/-- Claim C2 counterexample: content `"abcdef"` with cursor `1..4` —
`delete_at_point` does remove exactly `"bcd"`, but leaves the cursor at
`1..4`; it is not collapsed to `1..1` as the claim states. -/
theorem C2_counterexample :
    Option.map viewSummary (delete_at_point selView) = some (1, 4, "aef".toList) ∧
    Option.map viewSummary (delete_at_point selView) ≠ some (1, 1, "aef".toList) := by
  decide

/-- Claim C2 (amended): for every store and cursor with
`start ≤ end ≤ len_chars`, `delete_at_point` removes one clamped character
at `start` when collapsed and exactly `[start, end)` when a selection is
active, and marks the store dirty — but the cursor range is left unchanged
(not collapsed to `start`). -/
theorem C2_delete_at_point_semantics (v : BufferView)
    (hse : v.point_start ≤ v.point_end)
    (hlen : v.point_end ≤ lenChars v.buffer.rope) :
    ∃ w, delete_at_point v = some w ∧
      w.point_start = v.point_start ∧
      w.point_end = v.point_end ∧
      w.buffer.is_modified = true ∧
      w.buffer.rope =
        (if v.point_start = v.point_end then
          ropeRemove v.buffer.rope v.point_start
            (min (lenChars v.buffer.rope) (v.point_end + 1))
        else
          ropeRemove v.buffer.rope v.point_start v.point_end) := by
  have hg : v.point_start ≤ deleteTo v ∧ deleteTo v ≤ lenChars v.buffer.rope := by
    unfold deleteTo
    split <;> omega
  refine ⟨{ v with buffer := { v.buffer with
              rope := ropeRemove v.buffer.rope v.point_start (deleteTo v),
              is_modified := true } },
          by rw [delete_at_point, if_pos hlen, if_pos hg], rfl, rfl, rfl, ?_⟩
  show ropeRemove v.buffer.rope v.point_start (deleteTo v) = _
  by_cases hc : v.point_start = v.point_end <;> simp [deleteTo, hc]

/-- Witness for C2 (amended) at content `"abcdef"`, cursor `1..4`. -/
theorem C2_delete_at_point_semantics_witness :
    (selView.point_start ≤ selView.point_end ∧
      selView.point_end ≤ lenChars selView.buffer.rope) ∧
    (∃ w, delete_at_point selView = some w ∧
      w.point_start = selView.point_start ∧
      w.point_end = selView.point_end ∧
      w.buffer.is_modified = true ∧
      w.buffer.rope =
        (if selView.point_start = selView.point_end then
          ropeRemove selView.buffer.rope selView.point_start
            (min (lenChars selView.buffer.rope) (selView.point_end + 1))
        else
          ropeRemove selView.buffer.rope selView.point_start selView.point_end)) :=
  ⟨by decide, C2_delete_at_point_semantics selView (by decide) (by decide)⟩

/-- Claim C3: `insert_at_point text` inserts `text` at offset `start`,
collapses the cursor to `start + length text`, and sets the dirty flag; in
particular an empty store with cursor `0..0` and text `"HELLO"` yields
content `"HELLO"` and cursor `5..5`. -/
theorem C3_insert_at_point_semantics (v : BufferView) (t : Rope)
    (h : v.point_start ≤ lenChars v.buffer.rope) :
    (∃ w, insert_at_point v t = some w ∧
      w.buffer.rope =
        v.buffer.rope.take v.point_start ++ t ++ v.buffer.rope.drop v.point_start ∧
      w.point_start = v.point_start + t.length ∧
      w.point_end = v.point_start + t.length ∧
      w.buffer.is_modified = true) ∧
    Option.map viewSummary (insert_at_point (BufferView.new Buffer.new) ("HELLO".toList))
      = some (5, 5, "HELLO".toList) := by
  refine ⟨⟨_, by rw [insert_at_point, if_pos h], rfl, rfl, rfl, rfl⟩, by decide⟩

/-- Witness for C3 at content `"abc"`, cursor `0..0`, text `"XY"`. -/
theorem C3_insert_at_point_semantics_witness :
    abcView.point_start ≤ lenChars abcView.buffer.rope ∧
    ((∃ w, insert_at_point abcView ("XY".toList) = some w ∧
      w.buffer.rope =
        abcView.buffer.rope.take abcView.point_start ++ "XY".toList ++
          abcView.buffer.rope.drop abcView.point_start ∧
      w.point_start = abcView.point_start + ("XY".toList).length ∧
      w.point_end = abcView.point_start + ("XY".toList).length ∧
      w.buffer.is_modified = true) ∧
    Option.map viewSummary (insert_at_point (BufferView.new Buffer.new) ("HELLO".toList))
      = some (5, 5, "HELLO".toList)) :=
  ⟨by decide, C3_insert_at_point_semantics abcView ("XY".toList) (by decide)⟩

/-- Claim C4 counterexample: a dirty buffer with a backing path — a
successful `save` does write the full content to the path, but the dirty
flag is still set afterwards (the source's `save` takes `&self` and never
clears `is_modified`), contradicting the claim that it is cleared. -/
theorem C4_counterexample :
    Buffer.save dirtyBuf = (some ("f.txt", "abc".toList), dirtyBuf) ∧
    (Buffer.save dirtyBuf).2.is_modified = true ∧
    (Buffer.save dirtyBuf).2.is_modified ≠ false := by
  decide

/-- Claim C4 (amended): `save` is a no-op returning success when the store
is not dirty or has no location; otherwise a successful `save` writes the
full content to the location — but the dirty flag is left set (the buffer,
including `is_modified`, is returned unchanged). -/
theorem C4_save_semantics (b : Buffer) (p : String)
    (h1 : b.is_modified = true) (h2 : b.path = some p) :
    Buffer.save b = (some (p, b.rope), b) ∧
    (Buffer.save b).2.is_modified = true ∧
    Buffer.save { b with is_modified := false } =
      (none, { b with is_modified := false }) ∧
    Buffer.save { b with path := none } = (none, { b with path := none }) := by
  have hs : Buffer.save b = (some (p, b.rope), b) := by
    simp [Buffer.save, Buffer.save_as, h1, h2]
  refine ⟨hs, by rw [hs]; exact h1, by simp [Buffer.save], by simp [Buffer.save]⟩

/-- Witness for C4 (amended) at a dirty buffer with path `"f.txt"`. -/
theorem C4_save_semantics_witness :
    (dirtyBuf.is_modified = true ∧ dirtyBuf.path = some "f.txt") ∧
    (Buffer.save dirtyBuf = (some ("f.txt", dirtyBuf.rope), dirtyBuf) ∧
    (Buffer.save dirtyBuf).2.is_modified = true ∧
    Buffer.save { dirtyBuf with is_modified := false } =
      (none, { dirtyBuf with is_modified := false }) ∧
    Buffer.save { dirtyBuf with path := none } =
      (none, { dirtyBuf with path := none })) :=
  ⟨⟨by decide, by decide⟩, C4_save_semantics dirtyBuf "f.txt" (by decide) (by decide)⟩

/-- Claim C5 counterexample: `"abc"` is a 1-line buffer
(`len_lines = 1`), yet `goto_line 1000` collapses the cursor to `3..3`, not
`0..0` — ropey's `line_to_char len_lines` is `len_chars`, so the clamp
lands at the end of the content, not at line 0's start. -/
theorem C5_counterexample :
    lenLines abcView.buffer.rope = 1 ∧
    viewSummary (goto_line abcView 1000) = (3, 3, "abc".toList) ∧
    viewSummary (goto_line abcView 1000) ≠ (0, 0, "abc".toList) := by
  decide

/-- Claim C5 (amended): `goto_line` clamps out-of-range line numbers — on
an empty buffer (which has 1 line) `goto_line 1000` collapses the cursor to
`0..0`, and `goto_char 1000` on a 3-character buffer collapses it to
`3..3` — consistent with `goto_line line` collapsing to
`line_to_char (min line len_lines)` (and `goto_char n` to
`min n len_chars`), which never exceeds `len_chars`. -/
theorem C5_goto_clamp :
    viewSummary (goto_line (BufferView.new Buffer.new) 1000) = (0, 0, []) ∧
    viewSummary (goto_char abcView 1000) = (3, 3, "abc".toList) ∧
    (∀ (v : BufferView) (n : Nat),
      viewSummary (goto_line v n) =
        (lineToChar v.buffer.rope (min (lenLines v.buffer.rope) n),
         lineToChar v.buffer.rope (min (lenLines v.buffer.rope) n), v.buffer.rope) ∧
      viewSummary (goto_char v n) =
        (min n (lenChars v.buffer.rope), min n (lenChars v.buffer.rope),
         v.buffer.rope) ∧
      (goto_line v n).point_end ≤ lenChars v.buffer.rope ∧
      (goto_char v n).point_end ≤ lenChars v.buffer.rope) :=
  ⟨by decide, by decide,
   fun v n => ⟨rfl, rfl, lineToChar_le _ _, Nat.min_le_right _ _⟩⟩

/-- Claim C6: `move_point_end_of_line` resolves the line containing
`point.end`; if that line is line 0 it collapses the cursor to `len_chars`,
otherwise to `line_to_char (line + 1) - 1`; in particular on content
`"abc\ndef\n"` a cursor at `4..4` moves to `7..7`. -/
theorem C6_move_point_end_of_line :
    (∀ v : BufferView,
      viewSummary (move_point_end_of_line v) =
        (if charToLine v.buffer.rope v.point_end = 0 then lenChars v.buffer.rope
         else lineToChar v.buffer.rope (charToLine v.buffer.rope v.point_end + 1) - 1,
         if charToLine v.buffer.rope v.point_end = 0 then lenChars v.buffer.rope
         else lineToChar v.buffer.rope (charToLine v.buffer.rope v.point_end + 1) - 1,
         v.buffer.rope)) ∧
    viewSummary (move_point_end_of_line nlView) = (7, 7, "abc\ndef\n".toList) :=
  ⟨fun v => rfl, by decide⟩

/-- Claim C7: boundary movement is a no-op — `move_point_forward_char` on a
cursor whose `end` equals `len_chars` leaves the view unchanged, and
`move_point_backward_char` on a cursor whose `start` is `0` leaves the view
unchanged. -/
theorem C7_boundary_noop (v w : BufferView)
    (h1 : v.point_end = lenChars v.buffer.rope) (h2 : w.point_start = 0) :
    move_point_forward_char v = v ∧ move_point_backward_char w = w := by
  constructor
  · rw [move_point_forward_char, if_neg (by omega)]
  · rw [move_point_backward_char, if_neg (by omega)]

/-- Witness for C7: content `"abc"` with cursor `3..3` (at the end) and
content `"abc"` with cursor `0..0` (at the start). -/
theorem C7_boundary_noop_witness :
    (abcEndView.point_end = lenChars abcEndView.buffer.rope ∧
      abcView.point_start = 0) ∧
    (move_point_forward_char abcEndView = abcEndView ∧
      move_point_backward_char abcView = abcView) :=
  ⟨by decide, C7_boundary_noop abcEndView abcView (by decide) (by decide)⟩

/-- Claim C8: for a well-formed cursor (`start ≤ end`), `delete_at_point`
aborts if and only if `end > len_chars` at the time of the call; under the
precondition `end ≤ len_chars` it completes normally. -/
theorem C8_delete_assertion (v : BufferView) (h : v.point_start ≤ v.point_end) :
    (delete_at_point v = none ↔ lenChars v.buffer.rope < v.point_end) ∧
    (v.point_end ≤ lenChars v.buffer.rope → ∃ w, delete_at_point v = some w) := by
  have hkey : v.point_end ≤ lenChars v.buffer.rope →
      v.point_start ≤ deleteTo v ∧ deleteTo v ≤ lenChars v.buffer.rope := by
    intro hle
    unfold deleteTo
    split <;> omega
  constructor
  · constructor
    · intro hnone
      by_contra hcon
      rw [delete_at_point, if_pos (by omega), if_pos (hkey (by omega))] at hnone
      exact absurd hnone (by simp)
    · intro hlt
      rw [delete_at_point, if_neg (by omega)]
  · intro hle
    exact ⟨_, by rw [delete_at_point, if_pos hle, if_pos (hkey hle)]⟩

/-- Witness for C8 at content `"abcdef"`, cursor `1..4`. -/
theorem C8_delete_assertion_witness :
    selView.point_start ≤ selView.point_end ∧
    ((delete_at_point selView = none ↔
        lenChars selView.buffer.rope < selView.point_end) ∧
     (selView.point_end ≤ lenChars selView.buffer.rope →
        ∃ w, delete_at_point selView = some w)) :=
  ⟨by decide, C8_delete_assertion selView (by decide)⟩

/-- Claim C9 counterexample: two stores whose second lines differ — the
spawned `echo -n` invocations have different captured stdout, yet the value
returned to the caller is identical (`Ok(())` in the source): the captured
output, stderr and exit status are debug-printed, not returned. -/
theorem C9_counterexample :
    Option.map callerValue (run_shell_command shellViewX) =
      Option.map callerValue (run_shell_command shellViewY) ∧
    Option.map spawnedStdout (run_shell_command shellViewX) ≠
      Option.map spawnedStdout (run_shell_command shellViewY) := by
  decide

/-- Claim C9 (amended): `run_shell_command` extracts the text of the fixed
line range from `line_to_char 1` to `line_to_char 2`, spawns `echo -n`
with that text as its argument, waits, and returns plain unit success to
the caller — the captured output is printed, not returned (spawn/wait
failures still propagate as typed errors, and a buffer with fewer than two
lines panics). -/
theorem C9_run_shell_command (v : BufferView) (h : 2 ≤ lenLines v.buffer.rope) :
    run_shell_command v =
      some (⟨"echo",
             ["-n", String.mk (ropeSlice v.buffer.rope
                                (lineToChar v.buffer.rope 1)
                                (lineToChar v.buffer.rope 2))]⟩, ()) ∧
    Option.map callerValue (run_shell_command v) = some () ∧
    run_shell_command shellView3 = some (⟨"echo", ["-n", "def\n"]⟩, ()) ∧
    run_shell_command abcView = none := by
  have hs : run_shell_command v =
      some (⟨"echo",
             ["-n", String.mk (ropeSlice v.buffer.rope
                                (lineToChar v.buffer.rope 1)
                                (lineToChar v.buffer.rope 2))]⟩, ()) := by
    rw [run_shell_command, if_pos h]
  exact ⟨hs, by rw [hs]; rfl, by decide, by decide⟩

/-- Witness for C9 (amended) at content `"abc\ndef\nghi\n"`. -/
theorem C9_run_shell_command_witness :
    2 ≤ lenLines shellView3.buffer.rope ∧
    (run_shell_command shellView3 =
      some (⟨"echo",
             ["-n", String.mk (ropeSlice shellView3.buffer.rope
                                (lineToChar shellView3.buffer.rope 1)
                                (lineToChar shellView3.buffer.rope 2))]⟩, ()) ∧
    Option.map callerValue (run_shell_command shellView3) = some () ∧
    run_shell_command shellView3 = some (⟨"echo", ["-n", "def\n"]⟩, ()) ∧
    run_shell_command abcView = none) :=
  ⟨by decide, C9_run_shell_command shellView3 (by decide)⟩

/-- Claim C10: `delete_at_point` on a collapsed cursor already at the end
of the buffer (`start = end = len_chars`) returns normally, leaves the
content and the cursor unchanged, and yet still sets the dirty flag. -/
theorem C10_delete_at_buffer_end (v : BufferView)
    (h1 : v.point_start = v.point_end)
    (h2 : v.point_end = lenChars v.buffer.rope) :
    delete_at_point v =
      some { v with buffer := { v.buffer with is_modified := true } } := by
  have hto : deleteTo v = lenChars v.buffer.rope := by
    rw [deleteTo, if_pos h1]
    omega
  have hr : ropeRemove v.buffer.rope v.point_start (deleteTo v) = v.buffer.rope := by
    rw [hto, h1, h2]
    simp [ropeRemove, lenChars]
  rw [delete_at_point, if_pos (by omega), if_pos ⟨by omega, by omega⟩, hr]

/-- Witness for C10 at content `"abc"`, cursor `3..3`. -/
theorem C10_delete_at_buffer_end_witness :
    (abcEndView.point_start = abcEndView.point_end ∧
      abcEndView.point_end = lenChars abcEndView.buffer.rope) ∧
    delete_at_point abcEndView =
      some { abcEndView with buffer := { abcEndView.buffer with is_modified := true } } :=
  ⟨by decide, C10_delete_at_buffer_end abcEndView (by decide) (by decide)⟩

end Wrenched
